import Mathlib

/-!
Verification of the `deployment-trigger` module (reDeploy repository).

The JavaScript source is shallowly embedded:
* upstream HTTP behaviour (the four GitHub Git Data API calls made through
  `githubFetch`) is a parameter `GitHubEnv`, one function per endpoint;
* the clock (`Date.now()` / `new Date()`) is an explicit `Nat` parameter
  (epoch milliseconds); the queue advances it explicitly;
* JavaScript `x || d` on possibly-absent strings (where the empty string is
  falsy) is `strOr`; on possibly-absent numbers (where `0` is falsy) `natOr`;
* fallible code (`throw new DeploymentError`) returns `Except DeploymentError`.
-/

set_option maxRecDepth 10000

deriving instance DecidableEq for Except

/-- JavaScript `x || d` for an optional string: the empty string is falsy,
so both an absent and an empty `x` fall back to `d`
(used at lines 67, 76, 92, 115, 135 of the source). -/
def strOr : Option String → String → String
  | some s, d => if s = "" then d else s
  | none, d => d

/-- JavaScript `x || d` for an optional number: `0` is falsy, so both an
absent and a zero `x` fall back to `d` (used at lines 250-251). -/
def natOr : Option Nat → Nat → Nat
  | some v, d => if v = 0 then d else v
  | none, d => d

/-- The character for a decimal digit `n < 10`. -/
def digitChar (n : Nat) : Char := Char.ofNat (48 + n)

/-- Decimal digits, most significant first; structural recursion on a fuel
bound so that the kernel can evaluate it (`fuel ≥ n` suffices, since a number
has no more decimal digits than its value). -/
def natDigitsAux : Nat → Nat → List Char
  | 0, n => [digitChar n]
  | fuel + 1, n =>
    if n < 10 then [digitChar n]
    else natDigitsAux fuel (n / 10) ++ [digitChar (n % 10)]

/-- Decimal digits of a natural number, most significant first. -/
def natDigits (n : Nat) : List Char := natDigitsAux n n

/-- Left-pad the decimal rendering of `n` with zeros to width `w`
(the fixed-width fields of `Date.prototype.toISOString`). -/
def padNat (w n : Nat) : List Char :=
  List.replicate (w - (natDigits n).length) '0' ++ natDigits n

/-- Civil date (year, month, day) from a count of days since 1970-01-01
(proleptic Gregorian; the computation `Date.prototype.toISOString` performs). -/
def civilFromDays (z : Nat) : Nat × Nat × Nat :=
  let z' := z + 719468
  let era := z' / 146097
  let doe := z' % 146097
  let yoe := (doe - doe / 1460 + doe / 36524 - doe / 146097) / 365
  let y := yoe + era * 400
  let doy := doe - (365 * yoe + yoe / 4 - yoe / 100)
  let mp := (5 * doy + 2) / 153
  let d := doy - (153 * mp + 2) / 5 + 1
  let m := if mp < 10 then mp + 3 else mp - 9
  (if m ≤ 2 then y + 1 else y, m, d)

/-- The characters of `new Date(ms).toISOString()`:
`YYYY-MM-DDTHH:mm:ss.sssZ`, zero UTC offset. -/
def isoChars (ms : Nat) : List Char :=
  let days := ms / 86400000
  let ymd := civilFromDays days
  let sod := ms % 86400000 / 1000
  padNat 4 ymd.1 ++ ['-'] ++ padNat 2 ymd.2.1 ++ ['-'] ++ padNat 2 ymd.2.2 ++ ['T'] ++
    padNat 2 (sod / 3600) ++ [':'] ++ padNat 2 (sod % 3600 / 60) ++ [':'] ++
    padNat 2 (sod % 60) ++ ['.'] ++ padNat 3 (ms % 1000) ++ ['Z']

/-- `new Date(ms).toISOString()` as a string. -/
def isoString (ms : Nat) : String := String.mk (isoChars ms)

/-- JavaScript `String.prototype.replace('T', ' ')`: replaces only the first
occurrence of `'T'`. -/
def replaceFirstT : List Char → List Char
  | [] => []
  | c :: cs => if c = 'T' then ' ' :: cs else c :: replaceFirstT cs

/-- Source line 45: `now.toISOString().replace('T', ' ').substring(0, 19)`. -/
def timestampChars (ms : Nat) : List Char := (replaceFirstT (isoChars ms)).take 19

/-- Source lines 43-47 (`generateCommitMessage`), with the `new Date()` reading
supplied as the epoch-millisecond parameter `ms`. -/
def generateCommitMessage (ms : Nat) : String :=
  "chore: trigger rebuild [" ++ String.mk (timestampChars ms) ++ "]"

/-- The UTC date-time of epoch-millisecond `ms` rendered to second precision,
`YYYY-MM-DD HH:mm:ss` (the refinement target for the commit-message shape). -/
def utcSecondChars (ms : Nat) : List Char :=
  let days := ms / 86400000
  let ymd := civilFromDays days
  let sod := ms % 86400000 / 1000
  padNat 4 ymd.1 ++ ['-'] ++ padNat 2 ymd.2.1 ++ ['-'] ++ padNat 2 ymd.2.2 ++ [' '] ++
    padNat 2 (sod / 3600) ++ [':'] ++ padNat 2 (sod % 3600 / 60) ++ [':'] ++
    padNat 2 (sod % 60)

/-- The UTC date-time string to second precision. -/
def utcSecondString (ms : Nat) : String := String.mk (utcSecondChars ms)

/-- Modelled from the spec: the spec (section 4.1) describes the auto-generated
bracketed part as the current *local* date-time to second precision.  A locale
east of UTC by `tzEastMin` minutes reads local wall-clock time
`ms + 60000 * tzEastMin` at UTC instant `ms`. -/
def specLocalDateTime (ms tzEastMin : Nat) : String :=
  utcSecondString (ms + 60000 * tzEastMin)

/-- The response data `createEmptyCommit` consumes from one `githubFetch` call:
`ok` and `status` of the `Response`, and the fields read from its JSON body
(`message` for error bodies, `object.sha`/`sha` as `sha`, `tree.sha` as
`treeSha`). -/
structure HttpResponse where
  ok : Bool
  status : Nat
  message : Option String
  sha : String
  treeSha : String
deriving DecidableEq, Repr

/-- The upstream GitHub API, one function per endpoint used by the source
(lines 70-131); each takes the token and the request parameters, so responses
may depend on everything the request carries. -/
structure GitHubEnv where
  getRef : String → String → String → String → HttpResponse
  getCommit : String → String → String → String → HttpResponse
  createCommit : String → String → String → String → String → String → HttpResponse
  updateRef : String → String → String → String → String → HttpResponse

/-- Source lines 13-20 (`DeploymentError`). -/
structure DeploymentError where
  message : String
  code : String
  status : Nat
deriving DecidableEq, Repr

/-- Source lines 142-147: the result of a successful `createEmptyCommit`. -/
structure CommitResult where
  sha : String
  branch : String
  message : String
  timestamp : String
deriving DecidableEq, Repr

/-- Source lines 66-148 (`createEmptyCommit`).  `ms` is the epoch-millisecond
clock reading supplied for the `new Date()` calls. -/
def createEmptyCommit (env : GitHubEnv) (token owner repo branch : String)
    (options : Option String) (ms : Nat) : Except DeploymentError CommitResult :=
  let message := strOr options (generateCommitMessage ms)
  let refResponse := env.getRef token owner repo branch
  if refResponse.ok = false then
    .error ⟨strOr refResponse.message "Failed to get branch reference",
            "REF_NOT_FOUND", refResponse.status⟩
  else
    let currentCommitSha := refResponse.sha
    let commitResponse := env.getCommit token owner repo currentCommitSha
    if commitResponse.ok = false then
      .error ⟨strOr commitResponse.message "Failed to get commit data",
              "COMMIT_NOT_FOUND", commitResponse.status⟩
    else
      let treeSha := commitResponse.treeSha
      let newCommitResponse := env.createCommit token owner repo message treeSha currentCommitSha
      if newCommitResponse.ok = false then
        .error ⟨strOr newCommitResponse.message "Failed to create commit",
                "COMMIT_CREATE_FAILED", newCommitResponse.status⟩
      else
        let updateRefResponse := env.updateRef token owner repo branch newCommitResponse.sha
        if updateRefResponse.ok = false then
          .error ⟨strOr updateRefResponse.message "Failed to update branch reference",
                  "REF_UPDATE_FAILED", updateRefResponse.status⟩
        else
          .ok ⟨newCommitResponse.sha, branch, message, isoString ms⟩

/-- Source lines 168-180: one element of the `results` array of
`triggerDeployment`.  Fields absent on one of the two paths are `none`. -/
structure BranchOutcome where
  branch : String
  status : String
  sha : Option String
  timestamp : Option String
  error : Option String
  code : Option String
deriving DecidableEq, Repr

/-- Source lines 198-202: the per-repository summary. -/
structure DeploySummary where
  total : Nat
  successful : Nat
  failed : Nat
deriving DecidableEq, Repr

/-- Source lines 194-203: the result of `triggerDeployment`. -/
structure RepositoryDeploymentResult where
  repo : String
  status : String
  branches : List BranchOutcome
  summary : DeploySummary
deriving DecidableEq, Repr

/-- The `config` argument of `triggerDeployment` (source lines 153-162). -/
structure DeployConfig where
  owner : String
  repo : String
  branches : List String
  message : Option String
deriving DecidableEq, Repr

/-- Source lines 165-182: one iteration of the `for (const branch of branches)`
loop — the `try`/`catch` around `createEmptyCommit` that converts either
outcome into the pushed record. -/
def branchAttempt (env : GitHubEnv) (token : String) (cfg : DeployConfig) (ms : Nat)
    (branch : String) : BranchOutcome :=
  match createEmptyCommit env token cfg.owner cfg.repo branch cfg.message ms with
  | .ok result => ⟨branch, "success", some result.sha, some result.timestamp, none, none⟩
  | .error e => ⟨branch, "failed", none, none, some e.message, some e.code⟩

/-- Source lines 161-204 (`triggerDeployment`).  The loop pushing into
`results` is a left fold; status and summary follow lines 184-202. -/
def triggerDeployment (env : GitHubEnv) (token : String) (cfg : DeployConfig)
    (ms : Nat) : RepositoryDeploymentResult :=
  let results := cfg.branches.foldl (fun acc b => acc ++ [branchAttempt env token cfg ms b]) []
  let successCount := (results.filter (fun r => r.status == "success")).length
  let failCount := (results.filter (fun r => r.status == "failed")).length
  let status := if failCount = results.length then "failed"
                else if 0 < failCount then "partial" else "success"
  { repo := cfg.owner ++ "/" ++ cfg.repo
    status := status
    branches := results
    summary := ⟨results.length, successCount, failCount⟩ }

/-- Source lines 234-239: the batch summary (the source field named after the
third status is rendered here as `partials`). -/
structure BatchSummary where
  total : Nat
  successful : Nat
  failed : Nat
  partials : Nat
deriving DecidableEq, Repr

/-- Source lines 232-241: the result of `triggerBatchDeployment`. -/
structure BatchDeploymentResult where
  results : List RepositoryDeploymentResult
  summary : BatchSummary
  timestamp : String
deriving DecidableEq, Repr

/-- Source lines 228-241: aggregate the collected `results` into the batch
result (counts by repository status, completion timestamp). -/
def mkBatchResult (results : List RepositoryDeploymentResult) (ms : Nat) :
    BatchDeploymentResult :=
  { results := results
    summary := ⟨results.length,
                (results.filter (fun r => r.status == "success")).length,
                (results.filter (fun r => r.status == "failed")).length,
                (results.filter (fun r => r.status == "partial")).length⟩
    timestamp := isoString ms }

/-- Source lines 220-226: the chunking loop
`for (let i = 0; i < repos.length; i += concurrency)`.
`fuel` bounds the number of loop iterations performed; `none` means the loop
did not finish within `fuel` iterations.  With `concurrency = 0` the index
never advances, so the loop never finishes: `none` for every `fuel`. -/
def batchLoop (f : DeployConfig → RepositoryDeploymentResult)
    (repos : List DeployConfig) (concurrency : Nat) :
    Nat → Nat → List RepositoryDeploymentResult → Option (List RepositoryDeploymentResult)
  | fuel, i, acc =>
    if i < repos.length then
      match fuel with
      | 0 => none
      | fuel' + 1 =>
        batchLoop f repos concurrency fuel' (i + concurrency)
          (acc ++ (((repos.drop i).take concurrency).map f))
    else some acc

/-- Source lines 215-242 (`triggerBatchDeployment`).  The destructuring default
`{ concurrency = 3 }` applies only when the option is absent (`Option.getD`);
`repos.length + 1` iterations are always enough when the index advances. -/
def triggerBatchDeployment (env : GitHubEnv) (token : String)
    (repos : List DeployConfig) (options : Option Nat) (ms : Nat) :
    Option BatchDeploymentResult :=
  let concurrency := options.getD 3
  match batchLoop (fun cfg => triggerDeployment env token cfg ms) repos concurrency
      (repos.length + 1) 0 [] with
  | some results => some (mkBatchResult results ms)
  | none => none

/-- Source lines 248-254: the queue construction options; `options.rateLimit`
and `options.rateLimitWindow` both go through `x || default`. -/
structure QueueConfig where
  rateLimit : Nat
  rateLimitWindow : Nat
deriving DecidableEq, Repr

/-- The queue's mutable counters (source lines 252-253) together with the
current clock reading (`Date.now()`), in epoch milliseconds. -/
structure QueueState where
  now : Nat
  requestCount : Nat
  windowStart : Nat
deriving DecidableEq, Repr

/-- A queued task: its execution time in milliseconds and its behaviour
(a produced result, or a thrown error message). -/
structure QTask where
  dur : Nat
  run : Except String String
deriving DecidableEq, Repr

/-- Source lines 278-283: the recorded outcome of one task. -/
inductive TaskOutcome where
  | success (result : String)
  | error (msg : String)
deriving DecidableEq, Repr

/-- The `try`/`catch` of source lines 278-283. -/
def runTask (t : QTask) : TaskOutcome :=
  match t.run with
  | .ok v => .success v
  | .error m => .error m

/-- The observable record of one loop iteration of `process()`: when the task
was issued (started), the `windowStart` in force at that moment, whether the
rate-limit wait at lines 271-276 was taken, and the recorded outcome. -/
structure QueueStep where
  issueTime : Nat
  wStart : Nat
  waited : Bool
  outcome : TaskOutcome
deriving DecidableEq, Repr

/-- Source lines 265-269: reset the window when the elapsed time since
`windowStart` exceeds `rateLimitWindow`. -/
def expireWindow (cfg : QueueConfig) (s : QueueState) : QueueState :=
  if cfg.rateLimitWindow < s.now - s.windowStart then
    { s with requestCount := 0, windowStart := s.now }
  else s

/-- Source lines 263-286: one iteration of the `for (const task of this.queue)`
loop.  In the wait branch the timer is ideal: the `setTimeout` resolves exactly
`waitTime` later, and `Date.now()` then reads that instant.  The task itself
advances the clock by `t.dur`. -/
def stepTask (cfg : QueueConfig) (s : QueueState) (t : QTask) : QueueStep × QueueState :=
  let s1 := expireWindow cfg s
  if cfg.rateLimit ≤ s1.requestCount then
    let issueAt := s1.now + (cfg.rateLimitWindow - (s1.now - s1.windowStart))
    (⟨issueAt, issueAt, true, runTask t⟩, ⟨issueAt + t.dur, 0 + 1, issueAt⟩)
  else
    (⟨s1.now, s1.windowStart, false, runTask t⟩,
     ⟨s1.now + t.dur, s1.requestCount + 1, s1.windowStart⟩)

/-- Source lines 260-289 (`DeploymentQueue.process`): fold `stepTask` over the
queued tasks (the queue list is the sequence of `add()` calls, FIFO). -/
def processQueue (cfg : QueueConfig) : QueueState → List QTask → List QueueStep × QueueState
  | s, [] => ([], s)
  | s, t :: ts =>
    ((stepTask cfg s t).1 :: (processQueue cfg (stepTask cfg s t).2 ts).1,
     (processQueue cfg (stepTask cfg s t).2 ts).2)

/-- Source lines 248-254 (`DeploymentQueue` constructor): defaults 30 and
60000 via `||`, counters start at `requestCount = 0`,
`windowStart = Date.now() = t0`. -/
def mkQueue (rateLimit? rateLimitWindow? : Option Nat) (t0 : Nat) :
    QueueConfig × QueueState :=
  (⟨natOr rateLimit? 30, natOr rateLimitWindow? 60000⟩, ⟨t0, 0, t0⟩)

/-- The instants at which `process()` issued (started) the tasks. -/
def issueTimes (cfg : QueueConfig) (s : QueueState) (ts : List QTask) : List Nat :=
  (processQueue cfg s ts).1.map (fun e => e.issueTime)

/-- How many of the instants `times` fall in the half-open sliding window
`[t, t + w)`. -/
def slidingCount (times : List Nat) (t w : Nat) : Nat :=
  (times.filter (fun i => decide (t ≤ i) && decide (i < t + w))).length

/-- An upstream where all four calls succeed (scenario A of the spec). -/
def envAllOk : GitHubEnv :=
  ⟨fun _ _ _ _ => ⟨true, 200, none, "abc123", ""⟩,
   fun _ _ _ _ => ⟨true, 200, none, "", "tree123"⟩,
   fun _ _ _ _ _ _ => ⟨true, 201, none, "newcommit123", ""⟩,
   fun _ _ _ _ _ => ⟨true, 200, none, "", ""⟩⟩

/-- An upstream where the ref lookup fails with 404 `Branch not found`. -/
def envRefFail : GitHubEnv :=
  ⟨fun _ _ _ _ => ⟨false, 404, some "Branch not found", "", ""⟩,
   fun _ _ _ _ => ⟨true, 200, none, "", "tree123"⟩,
   fun _ _ _ _ _ _ => ⟨true, 201, none, "newcommit123", ""⟩,
   fun _ _ _ _ _ => ⟨true, 200, none, "", ""⟩⟩

/-- An upstream where the ref lookup fails carrying a `message` field that is
present but empty. -/
def envEmptyMsg : GitHubEnv :=
  ⟨fun _ _ _ _ => ⟨false, 404, some "", "", ""⟩,
   fun _ _ _ _ => ⟨true, 200, none, "", "tree123"⟩,
   fun _ _ _ _ _ _ => ⟨true, 201, none, "newcommit123", ""⟩,
   fun _ _ _ _ _ => ⟨true, 200, none, "", ""⟩⟩

example : createEmptyCommit envAllOk "t" "o" "r" "main" none 0 =
  .ok ⟨"newcommit123", "main", "chore: trigger rebuild [1970-01-01 00:00:00]",
       "1970-01-01T00:00:00.000Z"⟩ := by decide

example : issueTimes ⟨2, 10⟩ ⟨0, 0, 0⟩
    [⟨5, .ok "a"⟩, ⟨4, .ok "b"⟩, ⟨0, .ok "c"⟩, ⟨0, .ok "d"⟩] = [0, 5, 10, 10] := by decide

/-! ## Helper lemmas -/

theorem foldl_push_eq_map {α β : Type} (f : α → β) (l : List α) (acc : List β) :
    l.foldl (fun a b => a ++ [f b]) acc = acc ++ l.map f := by
  induction l generalizing acc with
  | nil => simp
  | cons x xs ih => simp [List.foldl_cons, ih]

theorem triggerDeployment_branches (env : GitHubEnv) (token : String)
    (cfg : DeployConfig) (ms : Nat) :
    (triggerDeployment env token cfg ms).branches =
      cfg.branches.map (branchAttempt env token cfg ms) := by
  simp [triggerDeployment, foldl_push_eq_map]

theorem branchAttempt_branch (env : GitHubEnv) (token : String) (cfg : DeployConfig)
    (ms : Nat) (b : String) : (branchAttempt env token cfg ms b).branch = b := by
  unfold branchAttempt
  cases createEmptyCommit env token cfg.owner cfg.repo b cfg.message ms <;> rfl

theorem branchAttempt_status (env : GitHubEnv) (token : String) (cfg : DeployConfig)
    (ms : Nat) (b : String) :
    (branchAttempt env token cfg ms b).status = "success" ∨
      (branchAttempt env token cfg ms b).status = "failed" := by
  unfold branchAttempt
  cases createEmptyCommit env token cfg.owner cfg.repo b cfg.message ms
  · exact Or.inr rfl
  · exact Or.inl rfl

theorem status_iff_of_dichotomy (res : List BranchOutcome) (hne : res ≠ [])
    (hdi : ∀ o ∈ res, o.status = "success" ∨ o.status = "failed") :
    ((if (res.filter (fun r => r.status == "failed")).length = res.length then "failed"
      else if 0 < (res.filter (fun r => r.status == "failed")).length then "partial"
      else "success") = "failed" ↔ ∀ o ∈ res, o.status = "failed")
    ∧ ((if (res.filter (fun r => r.status == "failed")).length = res.length then "failed"
      else if 0 < (res.filter (fun r => r.status == "failed")).length then "partial"
      else "success") = "success" ↔ ∀ o ∈ res, o.status = "success")
    ∧ ((if (res.filter (fun r => r.status == "failed")).length = res.length then "failed"
      else if 0 < (res.filter (fun r => r.status == "failed")).length then "partial"
      else "success") = "partial" ↔
        ¬(∀ o ∈ res, o.status = "failed") ∧ ¬(∀ o ∈ res, o.status = "success")) := by
  have hflen : (res.filter (fun r => r.status == "failed")).length = res.length ↔
      ∀ o ∈ res, o.status = "failed" := by
    rw [← List.countP_eq_length_filter, List.countP_eq_length]
    constructor
    · intro h o ho
      simpa using h o ho
    · intro h o ho
      simp [h o ho]
  have hfzero : (res.filter (fun r => r.status == "failed")).length = 0 ↔
      ∀ o ∈ res, o.status = "success" := by
    rw [← List.countP_eq_length_filter, List.countP_eq_zero]
    constructor
    · intro h o ho
      rcases hdi o ho with hs | hf
      · exact hs
      · exact absurd (by simp [hf]) (h o ho)
    · intro h o ho
      simp [h o ho]
  have hlen : res.length ≠ 0 := by
    intro h
    exact hne (List.eq_nil_of_length_eq_zero h)
  by_cases hall : (res.filter (fun r => r.status == "failed")).length = res.length
  · rw [if_pos hall]
    refine ⟨iff_of_true rfl (hflen.mp hall), ?_, ?_⟩
    · refine iff_of_false (by decide) (fun h => ?_)
      have h0 := hfzero.mpr h
      omega
    · exact iff_of_false (by decide) (fun h => h.1 (hflen.mp hall))
  · rw [if_neg hall]
    by_cases hpos : 0 < (res.filter (fun r => r.status == "failed")).length
    · rw [if_pos hpos]
      refine ⟨iff_of_false (by decide) (fun h => hall (hflen.mpr h)),
              iff_of_false (by decide) (fun h => ?_),
              iff_of_true rfl ⟨fun h => hall (hflen.mpr h), fun h => ?_⟩⟩
      · have h0 := hfzero.mpr h
        omega
      · have h0 := hfzero.mpr h
        omega
    · rw [if_neg hpos]
      have hsucc : ∀ o ∈ res, o.status = "success" := hfzero.mp (by omega)
      exact ⟨iff_of_false (by decide) (fun h => hall (hflen.mpr h)),
             iff_of_true rfl hsucc,
             iff_of_false (by decide) (fun h => h.2 hsucc)⟩

theorem stepTask_outcome (cfg : QueueConfig) (s : QueueState) (t : QTask) :
    (stepTask cfg s t).1.outcome = runTask t := by
  simp only [stepTask]
  split <;> rfl

/-! ## Claim theorems -/

/-- C2 (counterexample): for the empty branch list, every branch outcome is
(vacuously) `success`, yet the repository status is `failed`, not `success` —
so the claimed `status = success ↔ all outcomes success` fails as a universal
statement over all branch lists. -/
theorem triggerDeployment_empty_all_success_but_failed :
    ((triggerDeployment envAllOk "t" ⟨"o", "r", [], none⟩ 0).branches.all
        (fun o => o.status == "success")) = true
    ∧ (triggerDeployment envAllOk "t" ⟨"o", "r", [], none⟩ 0).status = "failed"
    ∧ ¬(triggerDeployment envAllOk "t" ⟨"o", "r", [], none⟩ 0).status = "success" := by
  decide

/-- C2 (amended: for every NON-EMPTY branch list): the repository status is
`failed` iff all branch outcomes are `failed`, `success` iff all are `success`,
and `partial` exactly otherwise. -/
theorem triggerDeployment_status_iff_nonempty (env : GitHubEnv) (token : String)
    (cfg : DeployConfig) (ms : Nat) (h : cfg.branches ≠ []) :
    ((triggerDeployment env token cfg ms).status = "failed" ↔
      ∀ o ∈ (triggerDeployment env token cfg ms).branches, o.status = "failed")
    ∧ ((triggerDeployment env token cfg ms).status = "success" ↔
      ∀ o ∈ (triggerDeployment env token cfg ms).branches, o.status = "success")
    ∧ ((triggerDeployment env token cfg ms).status = "partial" ↔
      ¬(∀ o ∈ (triggerDeployment env token cfg ms).branches, o.status = "failed") ∧
      ¬(∀ o ∈ (triggerDeployment env token cfg ms).branches, o.status = "success")) := by
  have hb := triggerDeployment_branches env token cfg ms
  have hst : (triggerDeployment env token cfg ms).status =
      (if ((cfg.branches.map (branchAttempt env token cfg ms)).filter
            (fun r => r.status == "failed")).length =
          (cfg.branches.map (branchAttempt env token cfg ms)).length then "failed"
      else if 0 < ((cfg.branches.map (branchAttempt env token cfg ms)).filter
            (fun r => r.status == "failed")).length then "partial"
      else "success") := by
    simp [triggerDeployment, foldl_push_eq_map]
  have hne : cfg.branches.map (branchAttempt env token cfg ms) ≠ [] := by
    intro hmap
    exact h (List.map_eq_nil_iff.mp hmap)
  have hdi : ∀ o ∈ cfg.branches.map (branchAttempt env token cfg ms),
      o.status = "success" ∨ o.status = "failed" := by
    intro o ho
    rcases List.mem_map.mp ho with ⟨b, _, rfl⟩
    exact branchAttempt_status env token cfg ms b
  rw [hb, hst]
  exact status_iff_of_dichotomy (cfg.branches.map (branchAttempt env token cfg ms)) hne hdi

/-- C2 (witness): a single-branch deployment whose only branch fails has
status `failed` (and not `partial`), instantiating the amended claim at a
concrete upstream. -/
theorem triggerDeployment_status_iff_witness :
    ((triggerDeployment envRefFail "t" ⟨"o", "r", ["main"], none⟩ 0).status = "failed" ↔
      ∀ o ∈ (triggerDeployment envRefFail "t" ⟨"o", "r", ["main"], none⟩ 0).branches,
        o.status = "failed")
    ∧ ((triggerDeployment envRefFail "t" ⟨"o", "r", ["main"], none⟩ 0).status = "success" ↔
      ∀ o ∈ (triggerDeployment envRefFail "t" ⟨"o", "r", ["main"], none⟩ 0).branches,
        o.status = "success")
    ∧ ((triggerDeployment envRefFail "t" ⟨"o", "r", ["main"], none⟩ 0).status = "partial" ↔
      ¬(∀ o ∈ (triggerDeployment envRefFail "t" ⟨"o", "r", ["main"], none⟩ 0).branches,
        o.status = "failed") ∧
      ¬(∀ o ∈ (triggerDeployment envRefFail "t" ⟨"o", "r", ["main"], none⟩ 0).branches,
        o.status = "success")) :=
  triggerDeployment_status_iff_nonempty envRefFail "t" ⟨"o", "r", ["main"], none⟩ 0 (by decide)

/-- C3: `triggerDeployment` always returns a result (it is a total function
into `RepositoryDeploymentResult`); every branch is processed — a
`createEmptyCommit` failure on one branch is captured in place as a `failed`
outcome carrying the error message and code, and does not remove any
subsequent branch from the result. -/
theorem triggerDeployment_total_captures_failures (env : GitHubEnv) (token : String)
    (cfg : DeployConfig) (ms : Nat) :
    (triggerDeployment env token cfg ms).branches = cfg.branches.map (fun b =>
      match createEmptyCommit env token cfg.owner cfg.repo b cfg.message ms with
      | .ok result => ⟨b, "success", some result.sha, some result.timestamp, none, none⟩
      | .error e => ⟨b, "failed", none, none, some e.message, some e.code⟩)
    ∧ (triggerDeployment env token cfg ms).summary.total = cfg.branches.length := by
  refine ⟨?_, ?_⟩
  · rw [triggerDeployment_branches]
    rfl
  · simp [triggerDeployment, foldl_push_eq_map]

/-- C7: the branch outcomes of `triggerDeployment` are in exactly the input
branch order, one outcome per input branch. -/
theorem triggerDeployment_branch_order (env : GitHubEnv) (token : String)
    (cfg : DeployConfig) (ms : Nat) :
    (triggerDeployment env token cfg ms).branches.map (fun o => o.branch) = cfg.branches
    ∧ (triggerDeployment env token cfg ms).branches.length = cfg.branches.length := by
  constructor
  · rw [triggerDeployment_branches, List.map_map]
    have hcomp : ((fun o : BranchOutcome => o.branch) ∘ branchAttempt env token cfg ms) =
        fun b => b := funext (fun b => branchAttempt_branch env token cfg ms b)
    rw [hcomp, List.map_id']
  · rw [triggerDeployment_branches, List.length_map]

/-- C9: on the empty branch list `triggerDeployment` returns status `failed`
(the `failCount === results.length` test holds vacuously at `0 = 0`) with
summary `{total := 0, successful := 0, failed := 0}`. -/
theorem triggerDeployment_empty_branches_failed (env : GitHubEnv)
    (token owner repo : String) (m : Option String) (ms : Nat) :
    triggerDeployment env token ⟨owner, repo, [], m⟩ ms =
      ⟨owner ++ "/" ++ repo, "failed", [], ⟨0, 0, 0⟩⟩ := rfl

/-- C6: `process()` records exactly one outcome per queued task, in FIFO
(`add`) order; each outcome is `success result` or `error message` according
to the task's behaviour, and a throwing task leaves every later task's outcome
in place. -/
theorem processQueue_outcomes_fifo (cfg : QueueConfig) (s : QueueState)
    (ts : List QTask) :
    (processQueue cfg s ts).1.map (fun e => e.outcome) = ts.map runTask
    ∧ (processQueue cfg s ts).1.length = ts.length := by
  have hmap : ∀ (u : QueueState) (l : List QTask),
      (processQueue cfg u l).1.map (fun e => e.outcome) = l.map runTask := by
    intro u l
    induction l generalizing u with
    | nil => rfl
    | cons t rest ih => simp [processQueue, stepTask_outcome, ih]
  refine ⟨hmap s ts, ?_⟩
  have := congrArg List.length (hmap s ts)
  simpa using this

/-- C1 (counterexample): with `rateLimit = 2`, `rateLimitWindowMs = 10` and
tasks lasting 5, 4, 0 and 0 ms, the tasks are issued at instants 0, 5, 10, 10;
the sliding window starting at instant 5 contains three issues — more than
`rateLimit` — because the fixed-window reset at the boundary permits a burst. -/
theorem queue_sliding_window_violation :
    issueTimes (mkQueue (some 2) (some 10) 0).1 (mkQueue (some 2) (some 10) 0).2
        [⟨5, .ok "a"⟩, ⟨4, .ok "b"⟩, ⟨0, .ok "c"⟩, ⟨0, .ok "d"⟩] = [0, 5, 10, 10]
    ∧ (mkQueue (some 2) (some 10) 0).1.rateLimit <
      slidingCount
        (issueTimes (mkQueue (some 2) (some 10) 0).1 (mkQueue (some 2) (some 10) 0).2
          [⟨5, .ok "a"⟩, ⟨4, .ok "b"⟩, ⟨0, .ok "c"⟩, ⟨0, .ok "d"⟩])
        5 (mkQueue (some 2) (some 10) 0).1.rateLimitWindow := by
  decide

theorem batchLoop_complete (f : DeployConfig → RepositoryDeploymentResult)
    (repos : List DeployConfig) {c : Nat} (hc : 1 ≤ c) :
    ∀ (fuel i : Nat) (acc : List RepositoryDeploymentResult),
      repos.length - i ≤ fuel →
      batchLoop f repos c fuel i acc = some (acc ++ (repos.drop i).map f) := by
  intro fuel
  induction fuel with
  | zero =>
    intro i acc hle
    have hi : ¬ i < repos.length := by omega
    rw [batchLoop, if_neg hi, List.drop_eq_nil_of_le (by omega)]
    simp
  | succ fuel ih =>
    intro i acc hle
    by_cases hi : i < repos.length
    · rw [batchLoop, if_pos hi]
      rw [ih (i + c) _ (by omega)]
      have hsplit : ((repos.drop i).take c).map f ++ (repos.drop (i + c)).map f =
          (repos.drop i).map f := by
        rw [← List.map_append]
        rw [show repos.drop (i + c) = (repos.drop i).drop c from (List.drop_drop c i repos).symm]
        rw [List.take_append_drop]
      rw [List.append_assoc, hsplit]
    · rw [batchLoop, if_neg hi, List.drop_eq_nil_of_le (by omega)]
      simp

theorem batchLoop_zero_stuck (f : DeployConfig → RepositoryDeploymentResult)
    (repos : List DeployConfig) (h : repos ≠ []) :
    ∀ (fuel : Nat) (acc : List RepositoryDeploymentResult),
      batchLoop f repos 0 fuel 0 acc = none := by
  have hl : 0 < repos.length := List.length_pos.mpr h
  intro fuel
  induction fuel with
  | zero =>
    intro acc
    rw [batchLoop, if_pos hl]
  | succ fuel ih =>
    intro acc
    rw [batchLoop, if_pos hl]
    exact ih _

/-- C4: for every concurrency ≥ 1 the batch result lists exactly one
repository result per input config, in the original input order — it equals
`mkBatchResult` of mapping `triggerDeployment` over the configs sequentially,
and hence equals the `concurrency = 1` result (chunking affects timing only). -/
theorem triggerBatchDeployment_order_eq_sequential (env : GitHubEnv) (token : String)
    (repos : List DeployConfig) (c ms : Nat) (hc : 1 ≤ c) :
    triggerBatchDeployment env token repos (some c) ms =
      some (mkBatchResult (repos.map (fun cfg => triggerDeployment env token cfg ms)) ms)
    ∧ triggerBatchDeployment env token repos (some c) ms =
      triggerBatchDeployment env token repos (some 1) ms := by
  have key : ∀ c', 1 ≤ c' → triggerBatchDeployment env token repos (some c') ms =
      some (mkBatchResult (repos.map (fun cfg => triggerDeployment env token cfg ms)) ms) := by
    intro c' hc'
    have hloop := batchLoop_complete (fun cfg => triggerDeployment env token cfg ms)
      repos hc' (repos.length + 1) 0 [] (by omega)
    simp [triggerBatchDeployment, hloop]
  exact ⟨key c hc, (key c hc).trans (key 1 le_rfl).symm⟩

/-- Three repository configurations, for the batch witnesses. -/
def repos3 : List DeployConfig :=
  [⟨"o", "r1", ["main"], none⟩, ⟨"o", "r2", ["main"], none⟩, ⟨"o", "r3", ["main"], none⟩]

/-- C4 (witness): three repositories at concurrency 2 (spec scenario D) —
all three results appear, in input order, and the batch equals the
concurrency-1 batch. -/
theorem triggerBatchDeployment_order_witness :
    triggerBatchDeployment envAllOk "t" repos3 (some 2) 0 =
      some (mkBatchResult (repos3.map (fun cfg => triggerDeployment envAllOk "t" cfg 0)) 0)
    ∧ triggerBatchDeployment envAllOk "t" repos3 (some 2) 0 =
      triggerBatchDeployment envAllOk "t" repos3 (some 1) 0 :=
  triggerBatchDeployment_order_eq_sequential envAllOk "t" repos3 2 0 (by decide)

/-- C10: with concurrency ≥ 1 the chunking loop terminates on every finite
config list (`repos.length + 1` iterations always suffice, and the batch
returns a result); with an explicit concurrency of 0 on a non-empty list the
loop index never advances, so the loop fails to finish within ANY iteration
bound `fuel`, and `triggerBatchDeployment` accordingly yields `none`. -/
theorem triggerBatchDeployment_termination (env : GitHubEnv) (token : String)
    (repos : List DeployConfig) (c ms fuel : Nat)
    (acc : List RepositoryDeploymentResult) (hc : 1 ≤ c) (hne : repos ≠ []) :
    triggerBatchDeployment env token repos (some c) ms =
      some (mkBatchResult (repos.map (fun cfg => triggerDeployment env token cfg ms)) ms)
    ∧ batchLoop (fun cfg => triggerDeployment env token cfg ms) repos 0 fuel 0 acc = none
    ∧ triggerBatchDeployment env token repos (some 0) ms = none := by
  refine ⟨?_, batchLoop_zero_stuck _ _ hne fuel acc, ?_⟩
  · have hloop := batchLoop_complete (fun cfg => triggerDeployment env token cfg ms)
      repos hc (repos.length + 1) 0 [] (by omega)
    simp [triggerBatchDeployment, hloop]
  · have hloop0 := batchLoop_zero_stuck (fun cfg => triggerDeployment env token cfg ms)
      repos hne (repos.length + 1) []
    simp [triggerBatchDeployment, hloop0]

/-- C10 (witness): instantiated at the three concrete repositories,
concurrency 2, fuel 5. -/
theorem triggerBatchDeployment_termination_witness :
    triggerBatchDeployment envAllOk "t" repos3 (some 2) 0 =
      some (mkBatchResult (repos3.map (fun cfg => triggerDeployment envAllOk "t" cfg 0)) 0)
    ∧ batchLoop (fun cfg => triggerDeployment envAllOk "t" cfg 0) repos3 0 5 0 [] = none
    ∧ triggerBatchDeployment envAllOk "t" repos3 (some 0) 0 = none :=
  triggerBatchDeployment_termination envAllOk "t" repos3 2 0 5 [] (by decide) (by decide)

/-- C5 (counterexample): an upstream error body whose `message` field is
present but empty is NOT preserved verbatim — JavaScript `error.message || d`
treats the empty string as falsy, so the generic per-step message is
substituted. -/
theorem createEmptyCommit_empty_message_not_verbatim :
    (envEmptyMsg.getRef "t" "o" "r" "b").message = some ""
    ∧ createEmptyCommit envEmptyMsg "t" "o" "r" "b" none 0 =
        .error ⟨"Failed to get branch reference", "REF_NOT_FOUND", 404⟩
    ∧ ¬("Failed to get branch reference" = "") := by
  decide

/-- C5 (amended: "when present" reads "when present and non-empty"):
`createEmptyCommit` fails iff one of its four HTTP calls returns a non-success
status; the failure carries the machine-readable code of the first failing
step (`REF_NOT_FOUND`, `COMMIT_NOT_FOUND`, `COMMIT_CREATE_FAILED`,
`REF_UPDATE_FAILED`) together with that response's HTTP status, and its
message is the upstream `message` when that is present and non-empty,
otherwise the generic per-step message (`strOr`). -/
theorem createEmptyCommit_error_characterization (env : GitHubEnv)
    (token owner repo branch : String) (opts : Option String) (ms : Nat)
    (s d : String) (hs : s ≠ "") :
    ((createEmptyCommit env token owner repo branch opts ms).isOk = true ↔
      ((env.getRef token owner repo branch).ok = true
      ∧ (env.getCommit token owner repo (env.getRef token owner repo branch).sha).ok = true
      ∧ (env.createCommit token owner repo (strOr opts (generateCommitMessage ms))
          (env.getCommit token owner repo (env.getRef token owner repo branch).sha).treeSha
          (env.getRef token owner repo branch).sha).ok = true
      ∧ (env.updateRef token owner repo branch
          (env.createCommit token owner repo (strOr opts (generateCommitMessage ms))
            (env.getCommit token owner repo (env.getRef token owner repo branch).sha).treeSha
            (env.getRef token owner repo branch).sha).sha).ok = true))
    ∧ ((env.getRef token owner repo branch).ok = false →
        createEmptyCommit env token owner repo branch opts ms =
          .error ⟨strOr (env.getRef token owner repo branch).message
              "Failed to get branch reference", "REF_NOT_FOUND",
            (env.getRef token owner repo branch).status⟩)
    ∧ ((env.getRef token owner repo branch).ok = true →
       (env.getCommit token owner repo (env.getRef token owner repo branch).sha).ok = false →
        createEmptyCommit env token owner repo branch opts ms =
          .error ⟨strOr (env.getCommit token owner repo
                (env.getRef token owner repo branch).sha).message
              "Failed to get commit data", "COMMIT_NOT_FOUND",
            (env.getCommit token owner repo (env.getRef token owner repo branch).sha).status⟩)
    ∧ ((env.getRef token owner repo branch).ok = true →
       (env.getCommit token owner repo (env.getRef token owner repo branch).sha).ok = true →
       (env.createCommit token owner repo (strOr opts (generateCommitMessage ms))
          (env.getCommit token owner repo (env.getRef token owner repo branch).sha).treeSha
          (env.getRef token owner repo branch).sha).ok = false →
        createEmptyCommit env token owner repo branch opts ms =
          .error ⟨strOr (env.createCommit token owner repo
                (strOr opts (generateCommitMessage ms))
                (env.getCommit token owner repo (env.getRef token owner repo branch).sha).treeSha
                (env.getRef token owner repo branch).sha).message
              "Failed to create commit", "COMMIT_CREATE_FAILED",
            (env.createCommit token owner repo (strOr opts (generateCommitMessage ms))
              (env.getCommit token owner repo (env.getRef token owner repo branch).sha).treeSha
              (env.getRef token owner repo branch).sha).status⟩)
    ∧ ((env.getRef token owner repo branch).ok = true →
       (env.getCommit token owner repo (env.getRef token owner repo branch).sha).ok = true →
       (env.createCommit token owner repo (strOr opts (generateCommitMessage ms))
          (env.getCommit token owner repo (env.getRef token owner repo branch).sha).treeSha
          (env.getRef token owner repo branch).sha).ok = true →
       (env.updateRef token owner repo branch
          (env.createCommit token owner repo (strOr opts (generateCommitMessage ms))
            (env.getCommit token owner repo (env.getRef token owner repo branch).sha).treeSha
            (env.getRef token owner repo branch).sha).sha).ok = false →
        createEmptyCommit env token owner repo branch opts ms =
          .error ⟨strOr (env.updateRef token owner repo branch
                (env.createCommit token owner repo (strOr opts (generateCommitMessage ms))
                  (env.getCommit token owner repo
                    (env.getRef token owner repo branch).sha).treeSha
                  (env.getRef token owner repo branch).sha).sha).message
              "Failed to update branch reference", "REF_UPDATE_FAILED",
            (env.updateRef token owner repo branch
              (env.createCommit token owner repo (strOr opts (generateCommitMessage ms))
                (env.getCommit token owner repo (env.getRef token owner repo branch).sha).treeSha
                (env.getRef token owner repo branch).sha).sha).status⟩)
    ∧ strOr (some s) d = s
    ∧ strOr none d = d := by
  refine ⟨?_, ?_, ?_, ?_, ?_, ?_, rfl⟩
  · cases h1 : (env.getRef token owner repo branch).ok
    · simp [createEmptyCommit, h1, Except.isOk, Except.toBool]
    · cases h2 : (env.getCommit token owner repo (env.getRef token owner repo branch).sha).ok
      · simp [createEmptyCommit, h1, h2, Except.isOk, Except.toBool]
      · cases h3 : (env.createCommit token owner repo (strOr opts (generateCommitMessage ms))
            (env.getCommit token owner repo (env.getRef token owner repo branch).sha).treeSha
            (env.getRef token owner repo branch).sha).ok
        · simp [createEmptyCommit, h1, h2, h3, Except.isOk, Except.toBool]
        · cases h4 : (env.updateRef token owner repo branch
              (env.createCommit token owner repo (strOr opts (generateCommitMessage ms))
                (env.getCommit token owner repo (env.getRef token owner repo branch).sha).treeSha
                (env.getRef token owner repo branch).sha).sha).ok
          · simp [createEmptyCommit, h1, h2, h3, h4, Except.isOk, Except.toBool]
          · simp [createEmptyCommit, h1, h2, h3, h4, Except.isOk, Except.toBool]
  · intro h1
    simp [createEmptyCommit, h1]
  · intro h1 h2
    simp [createEmptyCommit, h1, h2]
  · intro h1 h2 h3
    simp [createEmptyCommit, h1, h2, h3]
  · intro h1 h2 h3 h4
    simp [createEmptyCommit, h1, h2, h3, h4]
  · simp [strOr, hs]

/-- C5 (witness): a 404 ref lookup with a non-empty upstream message yields
the typed `REF_NOT_FOUND` failure with the message preserved verbatim. -/
theorem createEmptyCommit_error_witness :
    createEmptyCommit envRefFail "t" "o" "r" "b" none 0 =
      .error ⟨strOr (envRefFail.getRef "t" "o" "r" "b").message
          "Failed to get branch reference", "REF_NOT_FOUND",
        (envRefFail.getRef "t" "o" "r" "b").status⟩
    ∧ strOr (some "Branch not found") "Failed to get branch reference" =
        "Branch not found" := by
  have h := createEmptyCommit_error_characterization envRefFail "t" "o" "r" "b" none 0
    "Branch not found" "Failed to get branch reference" (by decide)
  exact ⟨h.2.1 rfl, h.2.2.2.2.2.1⟩

theorem natDigitsAux_digits :
    ∀ fuel n, (n < 10 ∨ n ≤ fuel) →
      ∀ c ∈ natDigitsAux fuel n, ∃ dg, dg < 10 ∧ c = digitChar dg := by
  intro fuel
  induction fuel with
  | zero =>
    intro n hn c hc
    have hn10 : n < 10 := by omega
    simp only [natDigitsAux, List.mem_singleton] at hc
    exact ⟨n, hn10, hc⟩
  | succ fuel ih =>
    intro n hn c hc
    by_cases h10 : n < 10
    · simp only [natDigitsAux, if_pos h10, List.mem_singleton] at hc
      exact ⟨n, h10, hc⟩
    · simp only [natDigitsAux, if_neg h10, List.mem_append, List.mem_singleton] at hc
      rcases hc with hc | hc
      · have hdiv : n / 10 ≤ fuel := by
          have : n / 10 < n := Nat.div_lt_self (by omega) (by omega)
          omega
        exact ih (n / 10) (Or.inr hdiv) c hc
      · exact ⟨n % 10, Nat.mod_lt n (by omega), hc⟩

theorem digitChar_ne_T (dg : Nat) (h : dg < 10) : digitChar dg ≠ 'T' := by
  interval_cases dg <;> decide

theorem padNat_ne_T (w n : Nat) : ∀ c ∈ padNat w n, c ≠ 'T' := by
  intro c hc
  simp only [padNat, List.mem_append] at hc
  rcases hc with hc | hc
  · have := List.eq_of_mem_replicate hc
    subst this
    decide
  · rcases natDigitsAux_digits n n (Or.inr le_rfl) c hc with ⟨dg, hdg, rfl⟩
    exact digitChar_ne_T dg hdg

theorem natDigitsAux_length :
    ∀ fuel n w, (n < 10 ∨ n ≤ fuel) → n < 10 ^ w → 1 ≤ w →
      (natDigitsAux fuel n).length ≤ w := by
  intro fuel
  induction fuel with
  | zero =>
    intro n w hn hw h1
    simp only [natDigitsAux, List.length_singleton]
    omega
  | succ fuel ih =>
    intro n w hn hw h1
    by_cases h10 : n < 10
    · simp only [natDigitsAux, if_pos h10, List.length_singleton]
      omega
    · simp only [natDigitsAux, if_neg h10, List.length_append, List.length_singleton]
      have hw2 : 2 ≤ w := by
        by_contra hlt
        have hw1 : w = 1 := by omega
        subst hw1
        simp [Nat.pow_one] at hw
        omega
      have hdiv : n / 10 ≤ fuel := by
        have : n / 10 < n := Nat.div_lt_self (by omega) (by omega)
        omega
      have hpow : n / 10 < 10 ^ (w - 1) := by
        rw [Nat.div_lt_iff_lt_mul (by omega)]
        have : 10 ^ (w - 1) * 10 = 10 ^ w := by
          rw [← Nat.pow_succ]
          congr 1
          omega
        omega
      have := ih (n / 10) (w - 1) (Or.inr hdiv) hpow (by omega)
      omega

theorem padNat_length (w n : Nat) (hw : n < 10 ^ w) (h1 : 1 ≤ w) :
    (padNat w n).length = w := by
  have hle : (natDigits n).length ≤ w :=
    natDigitsAux_length n n w (Or.inr le_rfl) hw h1
  simp only [padNat, List.length_append, List.length_replicate]
  omega

theorem replaceFirstT_append_of_no_T (l1 l2 : List Char) (h : ∀ c ∈ l1, c ≠ 'T') :
    replaceFirstT (l1 ++ 'T' :: l2) = l1 ++ ' ' :: l2 := by
  induction l1 with
  | nil => simp [replaceFirstT]
  | cons c cs ih =>
    have hc : c ≠ 'T' := h c (by simp)
    simp only [List.cons_append, replaceFirstT, if_neg hc, List.append_eq]
    rw [ih (fun x hx => h x (by simp [hx]))]

theorem take_19_of_shape (A B C : List Char) (hA : ∀ c ∈ A, c ≠ 'T')
    (hlenA : A.length = 10) (hlenB : B.length = 8) :
    (replaceFirstT (A ++ 'T' :: (B ++ C))).take 19 = A ++ ' ' :: B := by
  rw [replaceFirstT_append_of_no_T A _ hA]
  have hshape : A ++ ' ' :: (B ++ C) = (A ++ ' ' :: B) ++ C := by simp
  rw [hshape]
  have hlen : (A ++ ' ' :: B).length = 19 := by
    simp [hlenA, hlenB]
  rw [← hlen, List.take_left]

theorem timestamp_shape (y mo dd hh mi ss msp : Nat) (hy : y < 10000)
    (hmo : mo < 100) (hdd : dd < 100) (hhh : hh < 100) (hmi : mi < 100)
    (hss : ss < 100) :
    (replaceFirstT (padNat 4 y ++ ['-'] ++ padNat 2 mo ++ ['-'] ++ padNat 2 dd ++ ['T'] ++
      padNat 2 hh ++ [':'] ++ padNat 2 mi ++ [':'] ++ padNat 2 ss ++ ['.'] ++
      padNat 3 msp ++ ['Z'])).take 19 =
    padNat 4 y ++ ['-'] ++ padNat 2 mo ++ ['-'] ++ padNat 2 dd ++ [' '] ++
      padNat 2 hh ++ [':'] ++ padNat 2 mi ++ [':'] ++ padNat 2 ss := by
  have l4 : (padNat 4 y).length = 4 := by
    refine padNat_length 4 y ?_ (by omega)
    norm_num
    omega
  have lmo : (padNat 2 mo).length = 2 := by
    refine padNat_length 2 mo ?_ (by omega)
    norm_num
    omega
  have ldd : (padNat 2 dd).length = 2 := by
    refine padNat_length 2 dd ?_ (by omega)
    norm_num
    omega
  have lhh : (padNat 2 hh).length = 2 := by
    refine padNat_length 2 hh ?_ (by omega)
    norm_num
    omega
  have lmi : (padNat 2 mi).length = 2 := by
    refine padNat_length 2 mi ?_ (by omega)
    norm_num
    omega
  have lss : (padNat 2 ss).length = 2 := by
    refine padNat_length 2 ss ?_ (by omega)
    norm_num
    omega
  have hA : ∀ c ∈ padNat 4 y ++ '-' :: (padNat 2 mo ++ '-' :: padNat 2 dd), c ≠ 'T' := by
    intro c hc
    simp only [List.mem_append, List.mem_cons] at hc
    rcases hc with hc | rfl | hc | rfl | hc
    · exact padNat_ne_T 4 y c hc
    · decide
    · exact padNat_ne_T 2 mo c hc
    · decide
    · exact padNat_ne_T 2 dd c hc
  have hlenA : (padNat 4 y ++ '-' :: (padNat 2 mo ++ '-' :: padNat 2 dd)).length = 10 := by
    simp [l4, lmo, ldd]
  have hlenB : (padNat 2 hh ++ ':' :: (padNat 2 mi ++ ':' :: padNat 2 ss)).length = 8 := by
    simp [lhh, lmi, lss]
  have hshape : padNat 4 y ++ ['-'] ++ padNat 2 mo ++ ['-'] ++ padNat 2 dd ++ ['T'] ++
      padNat 2 hh ++ [':'] ++ padNat 2 mi ++ [':'] ++ padNat 2 ss ++ ['.'] ++
      padNat 3 msp ++ ['Z'] =
      (padNat 4 y ++ '-' :: (padNat 2 mo ++ '-' :: padNat 2 dd)) ++ 'T' ::
        ((padNat 2 hh ++ ':' :: (padNat 2 mi ++ ':' :: padNat 2 ss)) ++
          '.' :: (padNat 3 msp ++ ['Z'])) := by
    simp [List.append_assoc]
  rw [hshape, take_19_of_shape _ _ _ hA hlenA hlenB]
  simp [List.append_assoc]

theorem timestampChars_eq_utcSecondChars (ms : Nat)
    (hy : (civilFromDays (ms / 86400000)).1 < 10000)
    (hmo : (civilFromDays (ms / 86400000)).2.1 < 100)
    (hdd : (civilFromDays (ms / 86400000)).2.2 < 100) :
    timestampChars ms = utcSecondChars ms := by
  have hsod : ms % 86400000 / 1000 < 86400 := by
    rw [Nat.div_lt_iff_lt_mul (by omega)]
    have := Nat.mod_lt ms (show 0 < 86400000 by omega)
    omega
  have hh : ms % 86400000 / 1000 / 3600 < 100 := by
    rw [Nat.div_lt_iff_lt_mul (by omega)]
    omega
  have hmi : ms % 86400000 / 1000 % 3600 / 60 < 100 := by
    rw [Nat.div_lt_iff_lt_mul (by omega)]
    have := Nat.mod_lt (ms % 86400000 / 1000) (show 0 < 3600 by omega)
    omega
  have hss : ms % 86400000 / 1000 % 60 < 100 := by
    have := Nat.mod_lt (ms % 86400000 / 1000) (show 0 < 60 by omega)
    omega
  simp only [timestampChars, isoChars, utcSecondChars]
  exact timestamp_shape _ _ _ _ _ _ _ hy hmo hdd hh hmi hss

theorem createEmptyCommit_ok_message (env : GitHubEnv)
    (token owner repo branch : String) (opts : Option String) (ms : Nat)
    (res : CommitResult)
    (h : createEmptyCommit env token owner repo branch opts ms = .ok res) :
    res.message = strOr opts (generateCommitMessage ms) := by
  simp only [createEmptyCommit] at h
  split at h
  · exact absurd h (by simp)
  · split at h
    · exact absurd h (by simp)
    · split at h
      · exact absurd h (by simp)
      · split at h
        · exact absurd h (by simp)
        · injection h with h2
          rw [← h2]

/-- C8 (counterexample): the auto-generated timestamp is the UTC date-time
(`toISOString`), not the local date-time — at epoch instant 0 in a zone one
hour east of UTC the two differ; and a present-but-empty `options.message` is
not used verbatim (JavaScript `||` discards it for the generated one). -/
theorem generateCommitMessage_not_local_and_empty_message :
    ¬(generateCommitMessage 0 =
        "chore: trigger rebuild [" ++ specLocalDateTime 0 60 ++ "]")
    ∧ createEmptyCommit envAllOk "t" "o" "r" "main" (some "") 0 =
        .ok ⟨"newcommit123", "main", "chore: trigger rebuild [1970-01-01 00:00:00]",
             "1970-01-01T00:00:00.000Z"⟩
    ∧ ¬("chore: trigger rebuild [1970-01-01 00:00:00]" = "") := by
  decide

/-- C8 (amended: the bracketed part is the current UTC date-time — what
`toISOString` yields — to second precision, and a present custom message is
used verbatim only when non-empty): with no custom message the returned
`CommitResult.message` is `chore: trigger rebuild [<UTC date-time to second
precision>]`; with a non-empty custom message it is that message verbatim.
(The year/month/day bounds hold for every representable date; they feed the
fixed-width rendering.) -/
theorem commitMessage_utc_amended (env : GitHubEnv)
    (token owner repo branch : String) (ms : Nat) (m : String)
    (res1 res2 : CommitResult)
    (hy : (civilFromDays (ms / 86400000)).1 < 10000)
    (hmo : (civilFromDays (ms / 86400000)).2.1 < 100)
    (hdd : (civilFromDays (ms / 86400000)).2.2 < 100)
    (hm : m ≠ "") :
    (createEmptyCommit env token owner repo branch none ms = .ok res1 →
      res1.message = "chore: trigger rebuild [" ++ utcSecondString ms ++ "]")
    ∧ (createEmptyCommit env token owner repo branch (some m) ms = .ok res2 →
      res2.message = m) := by
  constructor
  · intro h
    rw [createEmptyCommit_ok_message env token owner repo branch none ms res1 h]
    show generateCommitMessage ms = _
    unfold generateCommitMessage utcSecondString
    rw [timestampChars_eq_utcSecondChars ms hy hmo hdd]
  · intro h
    rw [createEmptyCommit_ok_message env token owner repo branch (some m) ms res2 h]
    simp [strOr, hm]

/-- C8 (witness): instantiated at epoch instant 0 with the all-success
upstream: the generated message is the UTC rendering, and the custom message
`"x"` is returned verbatim. -/
theorem commitMessage_utc_witness :
    ("chore: trigger rebuild [1970-01-01 00:00:00]" : String) =
      "chore: trigger rebuild [" ++ utcSecondString 0 ++ "]"
    ∧ ("x" : String) = "x" := by
  have h := commitMessage_utc_amended envAllOk "t" "o" "r" "main" 0 "x"
    ⟨"newcommit123", "main", "chore: trigger rebuild [1970-01-01 00:00:00]",
     "1970-01-01T00:00:00.000Z"⟩
    ⟨"newcommit123", "main", "x", "1970-01-01T00:00:00.000Z"⟩
    (by decide) (by decide) (by decide) (by decide)
  exact ⟨h.1 (by decide), h.2 (by decide)⟩

theorem stepTask_cases (cfg : QueueConfig) (s : QueueState) (t : QTask)
    (hRL : 1 ≤ cfg.rateLimit) (h : s.windowStart ≤ s.now) :
    (¬ cfg.rateLimitWindow < s.now - s.windowStart ∧
      s.requestCount < cfg.rateLimit ∧
      stepTask cfg s t = (⟨s.now, s.windowStart, false, runTask t⟩,
        ⟨s.now + t.dur, s.requestCount + 1, s.windowStart⟩))
    ∨ (cfg.rateLimitWindow < s.now - s.windowStart ∧
      stepTask cfg s t = (⟨s.now, s.now, false, runTask t⟩,
        ⟨s.now + t.dur, 0 + 1, s.now⟩))
    ∨ (¬ cfg.rateLimitWindow < s.now - s.windowStart ∧
      cfg.rateLimit ≤ s.requestCount ∧
      stepTask cfg s t = (⟨s.windowStart + cfg.rateLimitWindow,
          s.windowStart + cfg.rateLimitWindow, true, runTask t⟩,
        ⟨s.windowStart + cfg.rateLimitWindow + t.dur, 0 + 1,
          s.windowStart + cfg.rateLimitWindow⟩)) := by
  by_cases hexp : cfg.rateLimitWindow < s.now - s.windowStart
  · refine Or.inr (Or.inl ⟨hexp, ?_⟩)
    have h0 : ¬ cfg.rateLimit ≤ (QueueState.mk s.now 0 s.now).requestCount := by
      simp
      omega
    simp only [stepTask, expireWindow, if_pos hexp]
    rw [if_neg h0]
  · by_cases hwait : cfg.rateLimit ≤ s.requestCount
    · refine Or.inr (Or.inr ⟨hexp, hwait, ?_⟩)
      have hissue : s.now + (cfg.rateLimitWindow - (s.now - s.windowStart)) =
          s.windowStart + cfg.rateLimitWindow := by omega
      simp only [stepTask, expireWindow, if_neg hexp, if_pos hwait]
      rw [hissue]
    · refine Or.inl ⟨hexp, by omega, ?_⟩
      simp only [stepTask, expireWindow, if_neg hexp]
      rw [if_neg hwait]

theorem stepTask_waited_iff (cfg : QueueConfig) (s : QueueState) (t : QTask)
    (hrc : s.requestCount ≤ cfg.rateLimit) :
    (stepTask cfg s t).1.waited = true ↔
      (expireWindow cfg s).requestCount = cfg.rateLimit := by
  have hle : (expireWindow cfg s).requestCount ≤ cfg.rateLimit := by
    simp only [expireWindow]
    split
    · simp
    · exact hrc
  simp only [stepTask]
  split <;> simp <;> omega

theorem processQueue_wStart_ge (cfg : QueueConfig) (hRL : 1 ≤ cfg.rateLimit) :
    ∀ (ts : List QTask) (s : QueueState), s.windowStart ≤ s.now →
      ∀ e ∈ (processQueue cfg s ts).1, s.windowStart ≤ e.wStart := by
  intro ts
  induction ts with
  | nil =>
    intro s h e he
    simp [processQueue] at he
  | cons t rest ih =>
    intro s h e he
    simp only [processQueue, List.mem_cons] at he
    rcases stepTask_cases cfg s t hRL h with
      ⟨hexp, hlt, heq⟩ | ⟨hexp, heq⟩ | ⟨hexp, hge, heq⟩
    · rw [heq] at he
      rcases he with rfl | he
      · simp
      · have := ih ⟨s.now + t.dur, s.requestCount + 1, s.windowStart⟩
          (by show s.windowStart ≤ s.now + t.dur; omega) e he
        simpa using this
    · rw [heq] at he
      rcases he with rfl | he
      · simpa using h
      · have := ih ⟨s.now + t.dur, 0 + 1, s.now⟩
          (by show s.now ≤ s.now + t.dur; omega) e he
        have h2 : s.now ≤ e.wStart := this
        omega
    · rw [heq] at he
      rcases he with rfl | he
      · simp
      · have := ih ⟨s.windowStart + cfg.rateLimitWindow + t.dur, 0 + 1,
          s.windowStart + cfg.rateLimitWindow⟩
          (by show s.windowStart + cfg.rateLimitWindow ≤
                s.windowStart + cfg.rateLimitWindow + t.dur
              omega) e he
        have h2 : s.windowStart + cfg.rateLimitWindow ≤ e.wStart := this
        omega

theorem processQueue_window_cap_aux (cfg : QueueConfig) (hRL : 1 ≤ cfg.rateLimit)
    (hW : 1 ≤ cfg.rateLimitWindow) :
    ∀ (ts : List QTask) (s : QueueState) (w : Nat),
      s.windowStart ≤ s.now → s.requestCount ≤ cfg.rateLimit →
      ((processQueue cfg s ts).1.filter (fun e => e.wStart == w)).length +
        (if w = s.windowStart then s.requestCount else 0) ≤ cfg.rateLimit := by
  intro ts
  induction ts with
  | nil =>
    intro s w h hrc
    simp only [processQueue, List.filter_nil, List.length_nil, Nat.zero_add]
    split <;> omega
  | cons t rest ih =>
    intro s w h hrc
    simp only [processQueue]
    rcases stepTask_cases cfg s t hRL h with
      ⟨hexp, hlt, heq⟩ | ⟨hexp, heq⟩ | ⟨hexp, hge, heq⟩
    · rw [heq]
      have ih' : ((processQueue cfg ⟨s.now + t.dur, s.requestCount + 1,
            s.windowStart⟩ rest).1.filter (fun e => e.wStart == w)).length +
          (if w = s.windowStart then s.requestCount + 1 else 0) ≤ cfg.rateLimit :=
        ih ⟨s.now + t.dur, s.requestCount + 1, s.windowStart⟩ w
          (by show s.windowStart ≤ s.now + t.dur; omega)
          (by show s.requestCount + 1 ≤ cfg.rateLimit; omega)
      simp only [List.filter_cons]
      by_cases hw : w = s.windowStart
      · rw [if_pos (show ((⟨s.now, s.windowStart, false, runTask t⟩ :
            QueueStep).wStart == w) = true by simp [hw])]
        rw [if_pos hw] at ih' ⊢
        simp only [List.length_cons]
        omega
      · rw [if_neg (show ¬ ((⟨s.now, s.windowStart, false, runTask t⟩ :
            QueueStep).wStart == w) = true by simp; omega)]
        rw [if_neg hw] at ih' ⊢
        omega
    · rw [heq]
      have hlt_ws : s.windowStart < s.now := by omega
      have ih' : ((processQueue cfg ⟨s.now + t.dur, 0 + 1,
            s.now⟩ rest).1.filter (fun e => e.wStart == w)).length +
          (if w = s.now then 0 + 1 else 0) ≤ cfg.rateLimit :=
        ih ⟨s.now + t.dur, 0 + 1, s.now⟩ w
          (by show s.now ≤ s.now + t.dur; omega)
          (by show 0 + 1 ≤ cfg.rateLimit; omega)
      simp only [List.filter_cons]
      by_cases hw2 : w = s.now
      · rw [if_pos (show ((⟨s.now, s.now, false, runTask t⟩ :
            QueueStep).wStart == w) = true by simp [hw2])]
        rw [if_pos hw2] at ih'
        rw [if_neg (show ¬ w = s.windowStart by omega)]
        simp only [List.length_cons]
        omega
      · rw [if_neg (show ¬ ((⟨s.now, s.now, false, runTask t⟩ :
            QueueStep).wStart == w) = true by simp; omega)]
        rw [if_neg hw2] at ih'
        by_cases hw3 : w = s.windowStart
        · have hnil : ((processQueue cfg ⟨s.now + t.dur, 0 + 1, s.now⟩ rest).1.filter
              (fun e => e.wStart == w)) = [] := by
            refine List.filter_eq_nil_iff.mpr (fun e he => ?_)
            have hge2 : s.now ≤ e.wStart := processQueue_wStart_ge cfg hRL rest
              ⟨s.now + t.dur, 0 + 1, s.now⟩
              (by show s.now ≤ s.now + t.dur; omega) e he
            simp only [beq_iff_eq]
            omega
          rw [hnil, if_pos hw3]
          simp only [List.length_nil]
          omega
        · rw [if_neg hw3]
          omega
    · rw [heq]
      have ih' : ((processQueue cfg ⟨s.windowStart + cfg.rateLimitWindow + t.dur, 0 + 1,
            s.windowStart + cfg.rateLimitWindow⟩ rest).1.filter
            (fun e => e.wStart == w)).length +
          (if w = s.windowStart + cfg.rateLimitWindow then 0 + 1 else 0) ≤ cfg.rateLimit :=
        ih ⟨s.windowStart + cfg.rateLimitWindow + t.dur, 0 + 1,
            s.windowStart + cfg.rateLimitWindow⟩ w
          (by show s.windowStart + cfg.rateLimitWindow ≤
                s.windowStart + cfg.rateLimitWindow + t.dur
              omega)
          (by show 0 + 1 ≤ cfg.rateLimit; omega)
      simp only [List.filter_cons]
      by_cases hw2 : w = s.windowStart + cfg.rateLimitWindow
      · rw [if_pos (show ((⟨s.windowStart + cfg.rateLimitWindow,
            s.windowStart + cfg.rateLimitWindow, true, runTask t⟩ :
            QueueStep).wStart == w) = true by simp [hw2])]
        rw [if_pos hw2] at ih'
        rw [if_neg (show ¬ w = s.windowStart by omega)]
        simp only [List.length_cons]
        omega
      · rw [if_neg (show ¬ ((⟨s.windowStart + cfg.rateLimitWindow,
            s.windowStart + cfg.rateLimitWindow, true, runTask t⟩ :
            QueueStep).wStart == w) = true by simp; omega)]
        rw [if_neg hw2] at ih'
        by_cases hw3 : w = s.windowStart
        · have hnil : ((processQueue cfg ⟨s.windowStart + cfg.rateLimitWindow + t.dur,
              0 + 1, s.windowStart + cfg.rateLimitWindow⟩ rest).1.filter
              (fun e => e.wStart == w)) = [] := by
            refine List.filter_eq_nil_iff.mpr (fun e he => ?_)
            have hge2 : s.windowStart + cfg.rateLimitWindow ≤ e.wStart :=
              processQueue_wStart_ge cfg hRL rest
                ⟨s.windowStart + cfg.rateLimitWindow + t.dur, 0 + 1,
                  s.windowStart + cfg.rateLimitWindow⟩
                (by show s.windowStart + cfg.rateLimitWindow ≤
                      s.windowStart + cfg.rateLimitWindow + t.dur
                    omega) e he
            simp only [beq_iff_eq]
            omega
          rw [hnil, if_pos hw3]
          simp only [List.length_nil]
          omega
        · rw [if_neg hw3]
          omega

theorem natOr_pos (o : Option Nat) (d : Nat) (hd : 1 ≤ d) : 1 ≤ natOr o d := by
  cases o with
  | none => exact hd
  | some v =>
    simp only [natOr]
    split <;> omega

/-- C1 (amended): the fixed-window guarantee the code actually provides —
`process()` waits (suspends for the remainder of the current window) exactly
when the post-expiry-check `requestCount` equals `rateLimit`, and for a queue
built by the constructor at most `rateLimit` tasks are ever issued under any
single `windowStart` (i.e. within one fixed rate-limit window).  The original
sliding-window bound fails at window boundaries (see the counterexample):
up to two adjacent fixed windows can place their bursts inside one
`rateLimitWindowMs`-long sliding window. -/
theorem queue_fixed_window_cap_and_wait_iff (cfg : QueueConfig) (s : QueueState)
    (t : QTask) (rl? win? : Option Nat) (t0 w : Nat) (tasks : List QTask)
    (hrc : s.requestCount ≤ cfg.rateLimit) :
    ((stepTask cfg s t).1.waited = true ↔
      (expireWindow cfg s).requestCount = cfg.rateLimit)
    ∧ ((processQueue (mkQueue rl? win? t0).1 (mkQueue rl? win? t0).2 tasks).1.filter
        (fun e => e.wStart == w)).length ≤ (mkQueue rl? win? t0).1.rateLimit := by
  refine ⟨stepTask_waited_iff cfg s t hrc, ?_⟩
  have h1 : 1 ≤ (mkQueue rl? win? t0).1.rateLimit := natOr_pos rl? 30 (by omega)
  have h2 : 1 ≤ (mkQueue rl? win? t0).1.rateLimitWindow := natOr_pos win? 60000 (by omega)
  have hcap := processQueue_window_cap_aux (mkQueue rl? win? t0).1 h1 h2 tasks
    (mkQueue rl? win? t0).2 w (le_refl t0) (Nat.zero_le _)
  have hcap2 : ((processQueue (mkQueue rl? win? t0).1 (mkQueue rl? win? t0).2
      tasks).1.filter (fun e => e.wStart == w)).length +
      (if w = t0 then 0 else 0) ≤ (mkQueue rl? win? t0).1.rateLimit := hcap
  simpa using hcap2

/-- C1 (witness): at `rateLimit = 2`, at a state whose counter has reached the
limit, the step waits (the iff holds concretely), and for the constructed
queue on the four counterexample tasks at most 2 tasks carry `windowStart`
0. -/
theorem queue_wait_iff_witness :
    ((stepTask ⟨2, 10⟩ ⟨0, 2, 0⟩ ⟨0, .ok "a"⟩).1.waited = true ↔
      (expireWindow ⟨2, 10⟩ ⟨0, 2, 0⟩).requestCount = 2)
    ∧ ((processQueue (mkQueue (some 2) (some 10) 0).1 (mkQueue (some 2) (some 10) 0).2
        [⟨5, .ok "a"⟩, ⟨4, .ok "b"⟩, ⟨0, .ok "c"⟩, ⟨0, .ok "d"⟩]).1.filter
        (fun e => e.wStart == 0)).length ≤ (mkQueue (some 2) (some 10) 0).1.rateLimit :=
  queue_fixed_window_cap_and_wait_iff ⟨2, 10⟩ ⟨0, 2, 0⟩ ⟨0, .ok "a"⟩ (some 2) (some 10)
    0 0 [⟨5, .ok "a"⟩, ⟨4, .ok "b"⟩, ⟨0, .ok "c"⟩, ⟨0, .ok "d"⟩] (by decide)
